import Mathlib

/-!
# Verification of the factcheck-backend key store, rate limiter and usage ledger

Shallow embedding of `src/services/db_service.py` (class `DBService`) and of
the API-key middleware in `src/app.py`.  The SQLite tables `api_keys`,
`usage_stats` and `rate_limits` are modelled as lists of rows inside a
`DBState`; each Python method becomes a pure function from a state (plus the
wall clock, passed explicitly where the Python reads `datetime.now()` /
`CURRENT_TIMESTAMP`) to a result and a new state.  SQL `SELECT ... LIMIT`-like
first-row semantics map to `List.find?` (rows are kept in insertion order,
which is rowid order for these append-only tables); SQL `UPDATE ... WHERE`
maps to `List.map` over the rows, updating every row matching the predicate.
Timestamps are integers (seconds); a calendar date is the timestamp's day
index `Int.fdiv t 86400`.  The unused surrogate `id` column of `rate_limits`
is omitted; the `UNIQUE(api_key_id, hour_timestamp)` constraint is the
predicate `RateUnique` below.
-/

/-- A row of the `api_keys` table (`CREATE TABLE api_keys` in
`DBService._init_db`): `id` autoincrement primary key, `key` unique,
optional `name`, `created_at`, nullable `last_used`, `is_active`
defaulting to true. -/
structure ApiKeyRow where
  id : Nat
  key : String
  name : Option String
  created_at : Int
  last_used : Option Int
  is_active : Bool
deriving DecidableEq

/-- A row of the `usage_stats` table: the key's id, the endpoint path, the
insertion timestamp, the response time in milliseconds and the HTTP status
code. -/
structure UsageRow where
  api_key_id : Nat
  endpoint : String
  timestamp : Int
  response_time_ms : Int
  status_code : Int
deriving DecidableEq

/-- A row of the `rate_limits` table: the key's id, the hour bucket label
(`YYYY-MM-DD-HH` string) and the admitted-request count for that bucket. -/
structure RateRow where
  api_key_id : Nat
  hour_timestamp : String
  request_count : Nat
deriving DecidableEq

/-- The whole database: the three tables, plus the next value of the
`api_keys` autoincrement counter. -/
structure DBState where
  api_keys : List ApiKeyRow
  usage_stats : List UsageRow
  rate_limits : List RateRow
  next_id : Nat
deriving DecidableEq

/-- `DBService.get_api_key_id`: `SELECT id FROM api_keys WHERE key = ?`,
returning the first matching row's id (no `is_active` filter). -/
def get_api_key_id (s : DBState) (api_key : String) : Option Nat :=
  (s.api_keys.find? (fun r => r.key == api_key)).map (fun r => r.id)

/-- `DBService.validate_api_key`: `SELECT id FROM api_keys WHERE key = ?
AND is_active = 1`; if a row is found, `UPDATE api_keys SET last_used =
CURRENT_TIMESTAMP WHERE id = ?` with that row's id, and return `True`;
otherwise return `False` with no write.  `now` is the wall clock. -/
def validate_api_key (s : DBState) (api_key : String) (now : Int) :
    Bool × DBState :=
  match s.api_keys.find? (fun r => r.key == api_key && r.is_active) with
  | some r =>
      (true, { s with api_keys := s.api_keys.map (fun q =>
          if q.id == r.id then { q with last_used := some now } else q) })
  | none => (false, s)

/-- `DBService.log_request`: resolve the key to an id; if unknown, log a
warning and return without writing; else `INSERT INTO usage_stats ...`.
`now` is the insertion timestamp. -/
def log_request (s : DBState) (api_key : String) (endpoint : String)
    (response_time_ms : Int) (status_code : Int) (now : Int) : DBState :=
  match get_api_key_id s api_key with
  | none => s
  | some kid =>
      { s with usage_stats := s.usage_stats ++
          [⟨kid, endpoint, now, response_time_ms, status_code⟩] }

/-- `SELECT request_count FROM rate_limits WHERE api_key_id = ? AND
hour_timestamp = ?` as a row lookup. -/
def findRateRow (rows : List RateRow) (kid : Nat) (hour : String) :
    Option RateRow :=
  rows.find? (fun r => r.api_key_id == kid && r.hour_timestamp == hour)

/-- `UPDATE rate_limits SET request_count = request_count + 1 WHERE
api_key_id = ? AND hour_timestamp = ?`: increment the stored count of every
matching row. -/
def incRateRow (rows : List RateRow) (kid : Nat) (hour : String) :
    List RateRow :=
  rows.map (fun r =>
    if r.api_key_id == kid && r.hour_timestamp == hour then
      { r with request_count := r.request_count + 1 }
    else r)

/-- The stored count for a `(api_key_id, bucket)` pair; a bucket with no row
counts as `0` (the row is created lazily). -/
def bucketCount (rows : List RateRow) (kid : Nat) (hour : String) : Nat :=
  match findRateRow rows kid hour with
  | some r => r.request_count
  | none => 0

/-- `DBService.check_rate_limit`: resolve the key (unknown key returns
`(False, 0)` with no write); look up the row for `(key_id, current_hour)`:
if present and `request_count < max_requests_per_hour`, run the increment
`UPDATE` and return `(True, count+1)`; if present and at or over the limit,
return `(False, count)` with no write; if absent, `INSERT` a row with
count `1` and return `(True, 1)`.  `current_hour` is the Python
`datetime.now().strftime("%Y-%m-%d-%H")` value, passed explicitly. -/
def check_rate_limit (s : DBState) (api_key : String)
    (max_requests_per_hour : Nat) (current_hour : String) :
    (Bool × Nat) × DBState :=
  match get_api_key_id s api_key with
  | none => ((false, 0), s)
  | some kid =>
      match findRateRow s.rate_limits kid current_hour with
      | some r =>
          if r.request_count < max_requests_per_hour then
            ((true, r.request_count + 1),
              { s with rate_limits := incRateRow s.rate_limits kid current_hour })
          else
            ((false, r.request_count), s)
      | none =>
          ((true, 1),
            { s with rate_limits :=
                s.rate_limits ++ [⟨kid, current_hour, 1⟩] })

/-- `DBService.add_api_key`: `INSERT INTO api_keys (key, name) VALUES (?, ?)`.
The `UNIQUE` constraint on `key` makes the insert raise
`sqlite3.IntegrityError` when the secret already exists, which the method
catches and turns into `False` with no mutation; otherwise the row is
inserted with the next autoincrement id, `is_active` defaulting to `1`
and `last_used` NULL, and the method returns `True`. -/
def add_api_key (s : DBState) (api_key : String) (name : Option String)
    (now : Int) : Bool × DBState :=
  if s.api_keys.any (fun r => r.key == api_key) then
    (false, s)
  else
    (true,
      { s with
        api_keys := s.api_keys ++
          [{ id := s.next_id, key := api_key, name := name,
             created_at := now, last_used := none, is_active := true }],
        next_id := s.next_id + 1 })

/-- The calendar date of a timestamp: its day index,
`strftime(%Y-%m-%d, timestamp)` modelled as floor division by 86400. -/
def dateOf (t : Int) : Int := Int.fdiv t 86400

/-- An output row of `DBService.get_usage_stats`: endpoint, row count,
average response time and calendar date. -/
structure StatRow where
  endpoint : String
  count : Nat
  avg_response_time : ℚ
  date : Int
deriving DecidableEq

/-- The `WHERE` clause of the `get_usage_stats` query: optional
`api_key_id = ?` filter, and `timestamp >= datetime(now, -days)`
(`cutoff` is `now - days * 86400`). -/
def usageMatches (keyFilter : Option Nat) (cutoff : Int) (r : UsageRow) :
    Bool :=
  (match keyFilter with
   | some kid => r.api_key_id == kid
   | none => true) && decide (cutoff ≤ r.timestamp)

/-- The `GROUP BY endpoint, date` key of a usage record. -/
def groupOf (r : UsageRow) : String × Int := (r.endpoint, dateOf r.timestamp)

/-- One aggregate row for group `g` over the filtered records `rs`:
`COUNT(*)` and `AVG(response_time_ms)` over the group's members. -/
def aggregate (rs : List UsageRow) (g : String × Int) : StatRow :=
  let members := rs.filter (fun r => groupOf r == g)
  { endpoint := g.1,
    count := members.length,
    avg_response_time :=
      (members.map (fun r => (r.response_time_ms : ℚ))).sum / members.length,
    date := g.2 }

/-- `ORDER BY date DESC, count DESC` on aggregate rows: `a` may precede `b`
when `a`'s date is later, or the dates agree and `a`'s count is at least
`b`'s. -/
def StatOrder (a b : StatRow) : Prop :=
  b.date < a.date ∨ (a.date = b.date ∧ b.count ≤ a.count)

instance : DecidableRel StatOrder := fun a b => by
  unfold StatOrder; exact inferInstance

instance : IsTotal StatRow StatOrder := by
  constructor
  intro a b
  unfold StatOrder
  rcases lt_trichotomy a.date b.date with h | h | h
  · exact Or.inr (Or.inl h)
  · rcases Nat.le_total b.count a.count with hc | hc
    · exact Or.inl (Or.inr ⟨h, hc⟩)
    · exact Or.inr (Or.inr ⟨h.symm, hc⟩)
  · exact Or.inl (Or.inl h)

instance : IsTrans StatRow StatOrder := by
  constructor
  intro a b c hab hbc
  unfold StatOrder at *
  rcases hab with h1 | ⟨h1, h1c⟩ <;> rcases hbc with h2 | ⟨h2, h2c⟩
  · exact Or.inl (h2.trans h1)
  · exact Or.inl (h2 ▸ h1)
  · exact Or.inl (h1 ▸ h2)
  · exact Or.inr ⟨h1.trans h2, h2c.trans h1c⟩

/-- The body of the `get_usage_stats` SQL: filter the `usage_stats` rows by
the optional key id and the trailing window, group by `(endpoint, date)`,
aggregate each group, and sort by date descending then count descending. -/
def usage_query (recs : List UsageRow) (keyFilter : Option Nat)
    (cutoff : Int) : List StatRow :=
  let rows := recs.filter (usageMatches keyFilter cutoff)
  (((rows.map groupOf).dedup).map (aggregate rows)).insertionSort StatOrder

/-- `DBService.get_usage_stats`: with an `api_key` argument, resolve it
(unknown key returns `[]`), filter by its id; without one, aggregate across
all keys.  `days` is the trailing window in days, `now` the wall clock. -/
def get_usage_stats (s : DBState) (api_key : Option String) (days : Nat)
    (now : Int) : List StatRow :=
  let cutoff := now - (days : Int) * 86400
  match api_key with
  | some k =>
      match get_api_key_id s k with
      | none => []
      | some kid => usage_query s.usage_stats (some kid) cutoff
  | none => usage_query s.usage_stats none cutoff

/-- Modelled from the spec: `deactivate(k)` is absent from `src/` (only
`validate`, `issue`, `resolve_id` and `list` have code there); the spec
says inactive keys "fail validation but are not deleted", so deactivation
clears `is_active` on the rows holding that secret and deletes nothing. -/
def deactivate_api_key (s : DBState) (api_key : String) : DBState :=
  { s with api_keys := s.api_keys.map (fun r =>
      if r.key == api_key then { r with is_active := false } else r) }

/-- The `UNIQUE(api_key_id, hour_timestamp)` constraint of the
`rate_limits` table: no two rows share the `(key, bucket)` pair. -/
def RateUnique (rows : List RateRow) : Prop :=
  rows.Pairwise (fun a b =>
    ¬(a.api_key_id = b.api_key_id ∧ a.hour_timestamp = b.hour_timestamp))

/-- One rate-limit call's first database statement, from
`DBService.check_rate_limit`: the `SELECT request_count` that reads the
current bucket's stored count.  Each call opens its own SQLite connection
and no transaction, table lock or in-process mutex spans the gap between
this read and the later write, so when two calls run concurrently (for
example in separate server worker processes sharing the database file)
their statements interleave: the scenario below runs each call's read and
write as separate atomic steps against the shared table. -/
def rl_select (rows : List RateRow) (kid : Nat) (hour : String) :
    Option Nat :=
  (findRateRow rows kid hour).map (fun r => r.request_count)

/-- One rate-limit call's second database statement together with the
call's return value, decided from the count that call read earlier: the
increment `UPDATE` when the read count is under the limit, no write when
it is at or over the limit, or the `INSERT` of a fresh bucket row when no
row was seen. -/
def rl_commit (rows : List RateRow) (kid : Nat) (hour : String)
    (maxReq : Nat) (readCount : Option Nat) : (Bool × Nat) × List RateRow :=
  match readCount with
  | some c =>
      if c < maxReq then ((true, c + 1), incRateRow rows kid hour)
      else ((false, c), rows)
  | none => ((true, 1), rows ++ [⟨kid, hour, 1⟩])

/-- A response of the Gateway middleware, reduced to what the claims are
about: the status code and the rate-limit headers the middleware attached
(the two `response.headers[...]` assignments in `src/app.py`). -/
structure HttpResponse where
  status : Nat
  rate_limit_headers : List (String × String)
deriving DecidableEq

/-- The `validate_api_key` middleware of `src/app.py` on a non-`/health`
request: a missing key header, or a key failing `validate_api_key`, is
answered `401` with no rate-limit headers; a key failing
`check_rate_limit(key, 100)` is answered `429` with no rate-limit headers;
otherwise the inner handler's response is returned with
`X-Rate-Limit-Limit = 100` and
`X-Rate-Limit-Remaining = str(100 - current_count)` attached. -/
def gateway_middleware (s : DBState) (api_key : Option String) (now : Int)
    (hour : String) (innerStatus : Nat) : HttpResponse × DBState :=
  match api_key with
  | none => (⟨401, []⟩, s)
  | some k =>
      let v := validate_api_key s k now
      if v.1 then
        let c := check_rate_limit v.2 k 100 hour
        if c.1.1 then
          (⟨innerStatus,
            [("X-Rate-Limit-Limit", toString (100 : Nat)),
             ("X-Rate-Limit-Remaining",
               toString ((100 : Int) - (c.1.2 : Int)))]⟩, c.2)
        else (⟨429, []⟩, c.2)
      else (⟨401, []⟩, v.2)

/-! ## Concrete states used by the witnesses -/

/-- A key row as produced by `add_api_key`: id 1, secret `abc123`, active. -/
def exKey : ApiKeyRow :=
  { id := 1, key := "abc123", name := none, created_at := 0,
    last_used := none, is_active := true }

/-- The hour bucket label used by the concrete scenarios. -/
def exHour : String := "2025-06-01-12"

/-- A database hosting `exKey` with one request already counted in
`exHour`. -/
def exState : DBState :=
  { api_keys := [exKey], usage_stats := [],
    rate_limits := [⟨1, exHour, 1⟩], next_id := 2 }

/-- A database hosting `exKey` whose `exHour` bucket is saturated at the
default ceiling of 100. -/
def satState : DBState :=
  { api_keys := [exKey], usage_stats := [],
    rate_limits := [⟨1, exHour, 100⟩], next_id := 2 }

/-! ## Helper lemmas -/

/-- `find?` over a `map` whose function does not change the predicate's
verdict finds the image of what `find?` finds. -/
theorem find?_map_congr {α : Type} (f : α → α) (q : α → Bool)
    (hq : ∀ a, q (f a) = q a) (l : List α) :
    (l.map f).find? q = (l.find? q).map f := by
  induction l with
  | nil => rfl
  | cons a t ih =>
      simp only [List.map_cons]
      by_cases h : q a = true
      · rw [List.find?_cons_of_pos _ (by rw [hq]; exact h),
          List.find?_cons_of_pos _ h]
        rfl
      · rw [List.find?_cons_of_neg _ (by rw [hq]; exact h),
          List.find?_cons_of_neg _ h, ih]

/-- The increment `UPDATE` does not change which row a bucket lookup
finds; it only bumps the found row's count when that row is the updated
one. -/
theorem findRateRow_incRateRow (rows : List RateRow) (kid kid' : Nat)
    (hr hr' : String) :
    findRateRow (incRateRow rows kid hr) kid' hr' =
      (findRateRow rows kid' hr').map (fun r =>
        if r.api_key_id == kid && r.hour_timestamp == hr then
          { r with request_count := r.request_count + 1 }
        else r) := by
  unfold findRateRow incRateRow
  apply find?_map_congr
  intro a
  by_cases h : (a.api_key_id == kid && a.hour_timestamp == hr) = true <;>
    simp [h]

/-- Bucket lookups distribute over appended rows. -/
theorem findRateRow_append (rows₁ rows₂ : List RateRow) (kid : Nat)
    (hr : String) :
    findRateRow (rows₁ ++ rows₂) kid hr =
      (findRateRow rows₁ kid hr).or (findRateRow rows₂ kid hr) :=
  List.find?_append

/-- `validate_api_key` answers true exactly when some row holds the secret
and is active. -/
theorem validate_eq_true_iff (s : DBState) (k : String) (now : Int) :
    (validate_api_key s k now).1 = true ↔
      ∃ r ∈ s.api_keys, r.key = k ∧ r.is_active = true := by
  unfold validate_api_key
  cases hf : s.api_keys.find? (fun r => r.key == k && r.is_active) with
  | some r =>
      constructor
      · intro _
        refine ⟨r, List.mem_of_find?_eq_some hf, ?_⟩
        have hp := List.find?_some hf
        simpa [Bool.and_eq_true, beq_iff_eq] using hp
      · intro _
        rfl
  | none =>
      constructor
      · intro hfalse
        exact absurd hfalse Bool.false_ne_true
      · rintro ⟨r, hr, hk, ha⟩
        have := List.find?_eq_none.mp hf r hr
        simp [hk, ha] at this

/-- Whatever `validate_api_key` does to the state, every secret present
before is present after (the stamp only touches `last_used`). -/
theorem validate_preserves_key_presence (s : DBState) (k : String)
    (now : Int) (e : String) (h : ∃ r ∈ s.api_keys, r.key = e) :
    ∃ r ∈ ((validate_api_key s k now).2).api_keys, r.key = e := by
  obtain ⟨r, hr, hk⟩ := h
  unfold validate_api_key
  cases hf : s.api_keys.find? (fun q => q.key == k && q.is_active) with
  | some r0 =>
      refine ⟨if r.id == r0.id then { r with last_used := some now } else r,
        ?_, ?_⟩
      · exact List.mem_map_of_mem _ hr
      · by_cases hid : (r.id == r0.id) = true <;> simp [hid, hk]
  | none => exact ⟨r, hr, hk⟩

/-- An admitted call never reports a count above the ceiling, provided the
ceiling is at least one. -/
theorem check_admitted_count_le (s : DBState) (k : String)
    (maxReq : Nat) (hour : String) (hmax : 1 ≤ maxReq)
    (h : (check_rate_limit s k maxReq hour).1.1 = true) :
    (check_rate_limit s k maxReq hour).1.2 ≤ maxReq := by
  unfold check_rate_limit at h ⊢
  cases hid : get_api_key_id s k with
  | none => simp [hid] at h
  | some kid =>
      simp only [hid] at h ⊢
      cases hf : findRateRow s.rate_limits kid hour with
      | some r =>
          simp only [hf] at h ⊢
          by_cases hlt : r.request_count < maxReq
          · simp only [if_pos hlt]
            show r.request_count + 1 ≤ maxReq
            omega
          · simp only [if_neg hlt] at h
            exact absurd h Bool.false_ne_true
      | none =>
          simp only [hf]
          exact hmax

/-! ## Claim theorems -/

/-- C1: a single non-concurrent `check_rate_limit` call for a known key
follows the specified algorithm: with no counter row for the current
bucket it inserts one with count 1 and returns `(true, 1)`; with a row
whose count is strictly below the ceiling it increments the stored count
by one and returns `(true, count+1)`; otherwise it returns
`(false, count)` and leaves the state unchanged. -/
theorem C1_check_and_increment_algorithm (s : DBState) (k : String)
    (kid maxReq : Nat) (hour : String)
    (hk : get_api_key_id s k = some kid) :
    (findRateRow s.rate_limits kid hour = none →
      check_rate_limit s k maxReq hour =
        ((true, 1), { s with rate_limits := s.rate_limits ++ [⟨kid, hour, 1⟩] })
      ∧ bucketCount (check_rate_limit s k maxReq hour).2.rate_limits kid hour = 1)
  ∧ (∀ r, findRateRow s.rate_limits kid hour = some r →
      (r.request_count < maxReq →
        check_rate_limit s k maxReq hour =
          ((true, r.request_count + 1),
            { s with rate_limits := incRateRow s.rate_limits kid hour })
        ∧ bucketCount (check_rate_limit s k maxReq hour).2.rate_limits kid hour
            = r.request_count + 1)
      ∧ (maxReq ≤ r.request_count →
        check_rate_limit s k maxReq hour = ((false, r.request_count), s))) := by
  refine ⟨?_, ?_⟩
  · intro hnone
    have heq : check_rate_limit s k maxReq hour =
        ((true, 1), { s with rate_limits := s.rate_limits ++ [⟨kid, hour, 1⟩] }) := by
      unfold check_rate_limit
      simp only [hk, hnone]
    refine ⟨heq, ?_⟩
    rw [heq]
    show bucketCount (s.rate_limits ++ [⟨kid, hour, 1⟩]) kid hour = 1
    unfold bucketCount
    rw [findRateRow_append, hnone]
    simp [findRateRow, List.find?]
  · intro r hr
    constructor
    · intro hlt
      have heq : check_rate_limit s k maxReq hour =
          ((true, r.request_count + 1),
            { s with rate_limits := incRateRow s.rate_limits kid hour }) := by
        unfold check_rate_limit
        simp only [hk, hr]
        rw [if_pos hlt]
      refine ⟨heq, ?_⟩
      rw [heq]
      show bucketCount (incRateRow s.rate_limits kid hour) kid hour
          = r.request_count + 1
      unfold bucketCount
      rw [findRateRow_incRateRow, hr]
      have hp := List.find?_some hr
      simp only [Option.map_some']
      rw [if_pos hp]
    · intro hge
      unfold check_rate_limit
      simp only [hk, hr]
      rw [if_neg (by omega)]

/-- C1 witness: in a state with one key `abc123` whose current bucket
holds one request, a call with ceiling 100 is admitted with count 2 and
stores count 2. -/
theorem C1_check_and_increment_algorithm_witness :
    check_rate_limit exState "abc123" 100 exHour =
      ((true, 2), { exState with rate_limits := incRateRow exState.rate_limits 1 exHour })
    ∧ bucketCount (check_rate_limit exState "abc123" 100 exHour).2.rate_limits 1 exHour = 2 :=
  ((C1_check_and_increment_algorithm exState "abc123" 1 100 exHour
      (by decide)).2 ⟨1, exHour, 1⟩ (by decide)).1 (by decide)

/-- C2: the code's `check_rate_limit` runs its `SELECT` and its
`UPDATE` as separate statements with no transaction or mutex spanning
them, so two concurrent calls that both read before either writes are
both admitted past a ceiling with one slot left: with stored count 1 and
ceiling 2, both calls return `(true, 2)` and the final stored count is 3,
exceeding the ceiling and differing from the number of admissions the
ceiling allows. -/
theorem C2_read_write_race :
    rl_commit [⟨1, exHour, 1⟩] 1 exHour 2 (rl_select [⟨1, exHour, 1⟩] 1 exHour) =
      ((true, 2), [⟨1, exHour, 2⟩])
  ∧ rl_commit [⟨1, exHour, 2⟩] 1 exHour 2 (rl_select [⟨1, exHour, 1⟩] 1 exHour) =
      ((true, 2), [⟨1, exHour, 3⟩])
  ∧ 2 < bucketCount [⟨1, exHour, 3⟩] 1 exHour := by
  refine ⟨rfl, rfl, by decide⟩

/-- C7: buckets are accounted independently: when the bucket `h1` of a
known key is saturated at the ceiling and no row exists for a different
bucket `h2`, a call in bucket `h2` is admitted with count 1, and the
saturated `h1` row is left untouched. -/
theorem C7_bucket_rollover (s : DBState) (k : String) (kid maxReq : Nat)
    (h1 h2 : String) (r1 : RateRow)
    (hk : get_api_key_id s k = some kid)
    (hsat : findRateRow s.rate_limits kid h1 = some r1)
    (hfull : r1.request_count = maxReq)
    (hdiff : h1 ≠ h2)
    (hnew : findRateRow s.rate_limits kid h2 = none) :
    check_rate_limit s k maxReq h2 =
      ((true, 1), { s with rate_limits := s.rate_limits ++ [⟨kid, h2, 1⟩] })
  ∧ findRateRow (check_rate_limit s k maxReq h2).2.rate_limits kid h1 = some r1 := by
  have heq : check_rate_limit s k maxReq h2 =
      ((true, 1), { s with rate_limits := s.rate_limits ++ [⟨kid, h2, 1⟩] }) := by
    unfold check_rate_limit
    simp only [hk, hnew]
  refine ⟨heq, ?_⟩
  rw [heq]
  show findRateRow (s.rate_limits ++ [⟨kid, h2, 1⟩]) kid h1 = some r1
  rw [findRateRow_append, hsat]
  rfl

/-- C7 witness: with bucket `2025-06-01-12` saturated at ceiling 1, the
first call in bucket `2025-06-01-13` is admitted with count 1 and the old
bucket's row is untouched. -/
theorem C7_bucket_rollover_witness :
    check_rate_limit exState "abc123" 1 "2025-06-01-13" =
      ((true, 1),
        { exState with rate_limits := exState.rate_limits ++ [⟨1, "2025-06-01-13", 1⟩] })
    ∧ findRateRow (check_rate_limit exState "abc123" 1 "2025-06-01-13").2.rate_limits
        1 exHour = some ⟨1, exHour, 1⟩ :=
  C7_bucket_rollover exState "abc123" 1 1 exHour "2025-06-01-13" ⟨1, exHour, 1⟩
    (by decide) (by decide) (by decide) (by decide) (by decide)

/-- C10: a `check_rate_limit` call with a secret that does not resolve to
a known key id is rejected as `(false, 0)` and the state, in particular
the `rate_limits` table, is left unchanged: no row is created for the
unknown key. -/
theorem C10_unknown_key_rejected (s : DBState) (k : String)
    (maxReq : Nat) (hour : String) (h : get_api_key_id s k = none) :
    check_rate_limit s k maxReq hour = ((false, 0), s) := by
  unfold check_rate_limit
  rw [h]

/-- C10 witness: the secret `nosuch` is unknown in `exState`, and the
call is rejected with count 0 and no state change. -/
theorem C10_unknown_key_rejected_witness :
    check_rate_limit exState "nosuch" 100 exHour = ((false, 0), exState) :=
  C10_unknown_key_rejected exState "nosuch" 100 exHour (by decide)

/-- C3: issuing a secret that is already present fails: the call returns
false (the `DuplicateKey` report) and mutates nothing, and after issuing
the same fresh secret twice exactly one `api_keys` row holds it; the
uniqueness comes from the `UNIQUE` constraint that makes the insert itself
fail, not from a separate existence check. -/
theorem C3_duplicate_issue (s : DBState) (k : String) (n1 n2 : Option String)
    (t1 t2 : Int) :
    ((∃ r ∈ s.api_keys, r.key = k) → add_api_key s k n2 t2 = (false, s))
  ∧ ((∀ r ∈ s.api_keys, r.key ≠ k) →
      (add_api_key s k n1 t1).1 = true
      ∧ (add_api_key ((add_api_key s k n1 t1).2) k n2 t2).1 = false
      ∧ (add_api_key ((add_api_key s k n1 t1).2) k n2 t2).2 =
          (add_api_key s k n1 t1).2
      ∧ (((add_api_key ((add_api_key s k n1 t1).2) k n2 t2).2.api_keys.filter
            (fun r => r.key == k)).length = 1)) := by
  constructor
  · rintro ⟨r, hr, hk⟩
    unfold add_api_key
    rw [if_pos (List.any_eq_true.mpr ⟨r, hr, by simp [hk]⟩)]
  · intro hfresh
    have hany : (s.api_keys.any (fun r => r.key == k)) = false := by
      rw [List.any_eq_false]
      intro r hr
      simp [hfresh r hr]
    have h1 : add_api_key s k n1 t1 =
        (true,
          { s with
            api_keys := s.api_keys ++
              [{ id := s.next_id, key := k, name := n1,
                 created_at := t1, last_used := none, is_active := true }],
            next_id := s.next_id + 1 }) := by
      unfold add_api_key
      rw [if_neg (by simp [hany])]
    have h2 : ((s.api_keys ++
        [(⟨s.next_id, k, n1, t1, none, true⟩ : ApiKeyRow)]).any
          (fun r => r.key == k)) = true := by
      rw [List.any_append, hany]
      simp
    rw [h1]
    have h3 : add_api_key
        { s with
          api_keys := s.api_keys ++
            [{ id := s.next_id, key := k, name := n1,
               created_at := t1, last_used := none, is_active := true }],
          next_id := s.next_id + 1 } k n2 t2 =
        (false,
          { s with
            api_keys := s.api_keys ++
              [{ id := s.next_id, key := k, name := n1,
                 created_at := t1, last_used := none, is_active := true }],
            next_id := s.next_id + 1 }) := by
      unfold add_api_key
      rw [if_pos h2]
    rw [h3]
    refine ⟨rfl, rfl, rfl, ?_⟩
    rw [List.filter_append]
    have hnil : s.api_keys.filter (fun r => r.key == k) = [] := by
      rw [List.filter_eq_nil]
      intro r hr
      simp [hfresh r hr]
    rw [hnil]
    simp

/-- C3 witness: in `exState` (which already holds the secret `abc123`), a
second issue of `abc123` returns false and changes nothing; and issuing
the fresh secret `zzz` twice leaves exactly one row holding `zzz`. -/
theorem C3_duplicate_issue_witness :
    add_api_key exState "abc123" (some "again") 5 = (false, exState)
    ∧ (((add_api_key ((add_api_key exState "zzz" none 1).2) "zzz" none 2).2.api_keys.filter
          (fun r => r.key == "zzz")).length = 1) :=
  ⟨(C3_duplicate_issue exState "abc123" none (some "again") 1 5).1
      ⟨exKey, by decide, by decide⟩,
    ((C3_duplicate_issue exState "zzz" none none 1 2).2 (by decide)).2.2.2⟩

/-- C4: `validate_api_key` answers true exactly when an active row holds
the secret; a successful validation stamps the found row's `last_used`
to the current time, touching no other field, row or table; a failed
validation leaves the state untouched. -/
theorem C4_validate_iff_and_stamp (s : DBState) (k : String) (now : Int) :
    ((validate_api_key s k now).1 = true ↔
      ∃ r ∈ s.api_keys, r.key = k ∧ r.is_active = true)
  ∧ (∀ r0, s.api_keys.find? (fun r => r.key == k && r.is_active) = some r0 →
      (validate_api_key s k now).1 = true
      ∧ (validate_api_key s k now).2 =
          { s with api_keys := s.api_keys.map (fun q =>
              if q.id == r0.id then { q with last_used := some now } else q) })
  ∧ ((validate_api_key s k now).1 = false → (validate_api_key s k now).2 = s) := by
  refine ⟨validate_eq_true_iff s k now, ?_, ?_⟩
  · intro r0 h0
    unfold validate_api_key
    simp [h0]
  · intro hfalse
    unfold validate_api_key at hfalse ⊢
    cases hf : s.api_keys.find? (fun r => r.key == k && r.is_active) with
    | some r =>
        simp only [hf] at hfalse
        simp at hfalse
    | none => rfl

/-- C4 witness: validating `abc123` in `exState` succeeds and stamps the
single key row's `last_used` to the clock value 7. -/
theorem C4_validate_iff_and_stamp_witness :
    (validate_api_key exState "abc123" 7).1 = true
    ∧ (validate_api_key exState "abc123" 7).2 =
        { exState with api_keys := exState.api_keys.map (fun q =>
            if q.id == 1 then { q with last_used := some 7 } else q) } := by
  have h := (C4_validate_iff_and_stamp exState "abc123" 7).2.1 exKey (by decide)
  exact ⟨h.1, h.2⟩

/-- C5: a key issued by `add_api_key` validates immediately (the row is
created active); after deactivation the same secret no longer validates,
although its row is still present in the table. -/
theorem C5_issue_then_deactivate (s : DBState) (k : String)
    (name : Option String) (t now1 now2 : Int)
    (hfresh : ∀ r ∈ s.api_keys, r.key ≠ k) :
    (add_api_key s k name t).1 = true
  ∧ (validate_api_key (add_api_key s k name t).2 k now1).1 = true
  ∧ (validate_api_key
      (deactivate_api_key
        (validate_api_key (add_api_key s k name t).2 k now1).2 k)
      k now2).1 = false
  ∧ ∃ r ∈ (deactivate_api_key
        (validate_api_key (add_api_key s k name t).2 k now1).2 k).api_keys,
      r.key = k := by
  have hany : (s.api_keys.any (fun r => r.key == k)) = false := by
    rw [List.any_eq_false]
    intro r hr
    simp [hfresh r hr]
  have h1 : add_api_key s k name t =
      (true,
        { s with
          api_keys := s.api_keys ++
            [{ id := s.next_id, key := k, name := name,
               created_at := t, last_used := none, is_active := true }],
          next_id := s.next_id + 1 }) := by
    unfold add_api_key
    rw [if_neg (by simp [hany])]
  rw [h1]
  have hmemnew : (⟨s.next_id, k, name, t, none, true⟩ : ApiKeyRow) ∈
      s.api_keys ++ [(⟨s.next_id, k, name, t, none, true⟩ : ApiKeyRow)] := by
    simp
  refine ⟨rfl, ?_, ?_, ?_⟩
  · exact (validate_eq_true_iff _ k now1).mpr ⟨_, hmemnew, rfl, rfl⟩
  · apply (Bool.eq_false_iff).mpr
    intro hv
    obtain ⟨r', hr', hk', ha'⟩ := (validate_eq_true_iff _ k now2).mp hv
    unfold deactivate_api_key at hr'
    simp only [List.mem_map] at hr'
    obtain ⟨q, _, hdef⟩ := hr'
    by_cases hqk : (q.key == k) = true
    · rw [if_pos hqk] at hdef
      rw [← hdef] at ha'
      simp at ha'
    · rw [if_neg hqk] at hdef
      rw [← hdef] at hk'
      simp only [beq_iff_eq] at hqk
      exact hqk hk'
  · have h2 : ∃ r ∈ (validate_api_key
        { s with
          api_keys := s.api_keys ++
            [{ id := s.next_id, key := k, name := name,
               created_at := t, last_used := none, is_active := true }],
          next_id := s.next_id + 1 } k now1).2.api_keys, r.key = k :=
      validate_preserves_key_presence _ k now1 k ⟨_, hmemnew, rfl⟩
    obtain ⟨r, hr, hk⟩ := h2
    unfold deactivate_api_key
    refine ⟨_, List.mem_map_of_mem _ hr, ?_⟩
    by_cases h : (r.key == k) = true <;> simp [h, hk]

/-- C5 witness: issuing the fresh secret `zzz` in `exState` validates,
and after deactivation it no longer validates while its row remains. -/
theorem C5_issue_then_deactivate_witness :
    (add_api_key exState "zzz" none 1).1 = true
    ∧ (validate_api_key (add_api_key exState "zzz" none 1).2 "zzz" 2).1 = true
    ∧ (validate_api_key
        (deactivate_api_key
          (validate_api_key (add_api_key exState "zzz" none 1).2 "zzz" 2).2 "zzz")
        "zzz" 3).1 = false
    ∧ ∃ r ∈ (deactivate_api_key
          (validate_api_key (add_api_key exState "zzz" none 1).2 "zzz" 2).2
          "zzz").api_keys,
        r.key = "zzz" :=
  C5_issue_then_deactivate exState "zzz" none 1 2 3 (by decide)

/-- C6 counterexample: the claim says every request that reaches the rate
limiter, admitted or rejected, carries the ceiling and remaining-quota
headers; but on a request rejected over quota the middleware returns its
`429` response early and attaches no rate-limit headers at all. -/
theorem C6_counterexample :
    (gateway_middleware satState (some "abc123") 0 exHour 200).1.status = 429
  ∧ (gateway_middleware satState (some "abc123") 0 exHour 200).1.rate_limit_headers
      = [] := by
  exact ⟨rfl, rfl⟩

/-- C6 amended: only admitted requests carry the rate-limit headers: on
admission the Gateway attaches the ceiling `100` and the remaining quota
`100 - current_count` (never negative, since an admitted count is at most
the ceiling); requests rejected over quota are answered `429`, and
requests with a missing or invalid key `401`, both with no rate-limit
headers. -/
theorem C6_headers_on_admission_only (s : DBState) (k : String) (now : Int)
    (hour : String) (innerStatus : Nat) :
    ((validate_api_key s k now).1 = true →
      (check_rate_limit (validate_api_key s k now).2 k 100 hour).1.1 = true →
      (gateway_middleware s (some k) now hour innerStatus).1 =
        ⟨innerStatus,
          [("X-Rate-Limit-Limit", toString (100 : Nat)),
           ("X-Rate-Limit-Remaining",
             toString ((100 : Int) -
               ((check_rate_limit (validate_api_key s k now).2 k 100 hour).1.2 : Int)))]⟩
      ∧ 0 ≤ (100 : Int) -
          ((check_rate_limit (validate_api_key s k now).2 k 100 hour).1.2 : Int))
  ∧ ((validate_api_key s k now).1 = true →
      (check_rate_limit (validate_api_key s k now).2 k 100 hour).1.1 = false →
      (gateway_middleware s (some k) now hour innerStatus).1 =
        ⟨429, []⟩)
  ∧ ((validate_api_key s k now).1 = false →
      (gateway_middleware s (some k) now hour innerStatus).1 =
        ⟨401, []⟩)
  ∧ (gateway_middleware s none now hour innerStatus).1 = ⟨401, []⟩ := by
  refine ⟨?_, ?_, ?_, rfl⟩
  · intro hv hc
    constructor
    · simp only [gateway_middleware]
      rw [if_pos hv, if_pos hc]
    · have hle := check_admitted_count_le (validate_api_key s k now).2 k 100
        hour (by omega) hc
      omega
  · intro hv hc
    simp only [gateway_middleware]
    rw [if_pos hv, if_neg (by simp [hc])]
  · intro hv
    simp only [gateway_middleware]
    rw [if_neg (by simp [hv])]

/-- C6 amended witness: in `exState` (bucket count 1), the request is
admitted and the inner response carries limit 100 and remaining 98. -/
theorem C6_headers_on_admission_only_witness :
    (gateway_middleware exState (some "abc123") 0 exHour 200).1 =
      ⟨200, [("X-Rate-Limit-Limit", toString (100 : Nat)),
             ("X-Rate-Limit-Remaining", toString ((100 : Int) - (2 : Int)))]⟩ :=
  ((C6_headers_on_admission_only exState "abc123" 0 exHour 200).1
    (by decide) (by decide)).1

/-- The increment `UPDATE` preserves the uniqueness of
`(api_key_id, bucket)` pairs: it changes no key or bucket field. -/
theorem rateUnique_inc (rows : List RateRow) (kid : Nat) (hr : String)
    (h : RateUnique rows) : RateUnique (incRateRow rows kid hr) := by
  unfold RateUnique incRateRow at *
  refine List.Pairwise.map _ ?_ h
  intro a b hab
  by_cases ha : (a.api_key_id == kid && a.hour_timestamp == hr) = true <;>
    by_cases hb : (b.api_key_id == kid && b.hour_timestamp == hr) = true <;>
    simp only [ha, hb, if_true, if_false, Bool.false_eq_true, if_pos, if_neg] <;>
    simpa using hab

/-- Inserting the lazily created row for a bucket that had none preserves
pair uniqueness. -/
theorem rateUnique_insert (rows : List RateRow) (kid : Nat) (hr : String)
    (h : RateUnique rows) (hnone : findRateRow rows kid hr = none) :
    RateUnique (rows ++ [⟨kid, hr, 1⟩]) := by
  unfold RateUnique at *
  rw [List.pairwise_append]
  refine ⟨h, by simp, ?_⟩
  intro a ha b hb
  have hne := List.find?_eq_none.mp hnone a ha
  simp only [List.mem_singleton] at hb
  subst hb
  simp only [Bool.and_eq_true, beq_iff_eq, not_and] at hne
  rintro ⟨hk, hh⟩
  exact hne hk hh

/-- The increment `UPDATE` never lowers any stored bucket count. -/
theorem bucketCount_inc_le (rows : List RateRow) (kid kid' : Nat)
    (hr hr' : String) :
    bucketCount rows kid' hr' ≤
      bucketCount (incRateRow rows kid hr) kid' hr' := by
  unfold bucketCount
  rw [findRateRow_incRateRow]
  cases hq : findRateRow rows kid' hr' with
  | none => simp
  | some q =>
      simp only [Option.map_some']
      by_cases hpq : (q.api_key_id == kid && q.hour_timestamp == hr) = true
      · rw [if_pos hpq]
        exact Nat.le_succ _
      · rw [if_neg hpq]

/-- Appending the lazily created row for a fresh bucket never lowers any
stored bucket count. -/
theorem bucketCount_append_le (rows : List RateRow) (kid kid' : Nat)
    (hr hr' : String) :
    bucketCount rows kid' hr' ≤
      bucketCount (rows ++ [⟨kid, hr, 1⟩]) kid' hr' := by
  unfold bucketCount
  rw [findRateRow_append]
  cases hq : findRateRow rows kid' hr' with
  | none => exact Nat.zero_le _
  | some q => simp

/-- C9: every operation preserves the RateWindow invariant: starting from
a table with unique `(api_key_id, bucket)` pairs, `check_rate_limit`
keeps the pairs unique and never lowers any stored bucket count, and
`validate_api_key`, `add_api_key` and `log_request` do not touch the
`rate_limits` table at all. -/
theorem C9_rate_window_invariant (s : DBState)
    (hu : RateUnique s.rate_limits) :
    (∀ k maxReq hour,
      RateUnique (check_rate_limit s k maxReq hour).2.rate_limits
      ∧ ∀ kid h, bucketCount s.rate_limits kid h ≤
          bucketCount (check_rate_limit s k maxReq hour).2.rate_limits kid h)
  ∧ (∀ k now, (validate_api_key s k now).2.rate_limits = s.rate_limits)
  ∧ (∀ k n t, (add_api_key s k n t).2.rate_limits = s.rate_limits)
  ∧ (∀ k e rt sc t, (log_request s k e rt sc t).rate_limits = s.rate_limits) := by
  refine ⟨?_, ?_, ?_, ?_⟩
  · intro k maxReq hour
    cases hid : get_api_key_id s k with
    | none =>
        have heq : check_rate_limit s k maxReq hour = ((false, 0), s) := by
          unfold check_rate_limit
          rw [hid]
        rw [heq]
        exact ⟨hu, fun kid h => le_rfl⟩
    | some kid0 =>
        cases hf : findRateRow s.rate_limits kid0 hour with
        | some r =>
            by_cases hlt : r.request_count < maxReq
            · have heq : check_rate_limit s k maxReq hour =
                  ((true, r.request_count + 1),
                    { s with rate_limits := incRateRow s.rate_limits kid0 hour }) := by
                unfold check_rate_limit
                simp only [hid, hf]
                rw [if_pos hlt]
              rw [heq]
              exact ⟨rateUnique_inc _ _ _ hu,
                fun kid h => bucketCount_inc_le _ _ _ _ _⟩
            · have heq : check_rate_limit s k maxReq hour =
                  ((false, r.request_count), s) := by
                unfold check_rate_limit
                simp only [hid, hf]
                rw [if_neg hlt]
              rw [heq]
              exact ⟨hu, fun kid h => le_rfl⟩
        | none =>
            have heq : check_rate_limit s k maxReq hour =
                ((true, 1),
                  { s with rate_limits := s.rate_limits ++ [⟨kid0, hour, 1⟩] }) := by
              unfold check_rate_limit
              simp only [hid, hf]
            rw [heq]
            exact ⟨rateUnique_insert _ _ _ hu hf,
              fun kid h => bucketCount_append_le _ _ _ _ _⟩
  · intro k now
    unfold validate_api_key
    cases hf : s.api_keys.find? (fun r => r.key == k && r.is_active) <;> rfl
  · intro k n t
    unfold add_api_key
    split <;> rfl
  · intro k e rt sc t
    unfold log_request
    cases hg : get_api_key_id s k <;> rfl

/-- C9 witness: on `exState`, an admitted call keeps the pairs unique and
does not lower the counted bucket. -/
theorem C9_rate_window_invariant_witness :
    RateUnique (check_rate_limit exState "abc123" 100 exHour).2.rate_limits
    ∧ bucketCount exState.rate_limits 1 exHour ≤
        bucketCount (check_rate_limit exState "abc123" 100 exHour).2.rate_limits
          1 exHour := by
  have h := (C9_rate_window_invariant exState
      (by unfold RateUnique; simp [exState])).1 "abc123" 100 exHour
  exact ⟨h.1, h.2 1 exHour⟩

/-- A row is in the usage query output exactly when it is the aggregate of
one of the `(endpoint, date)` groups of the filtered records. -/
theorem mem_usage_query (recs : List UsageRow) (kf : Option Nat)
    (cutoff : Int) (row : StatRow) :
    row ∈ usage_query recs kf cutoff ↔
      ∃ g ∈ ((recs.filter (usageMatches kf cutoff)).map groupOf).dedup,
        aggregate (recs.filter (usageMatches kf cutoff)) g = row := by
  unfold usage_query
  rw [(List.perm_insertionSort _ _).mem_iff]
  constructor
  · intro h
    obtain ⟨g, hg, he⟩ := List.mem_map.mp h
    exact ⟨g, hg, he⟩
  · rintro ⟨g, hg, he⟩
    exact List.mem_map.mpr ⟨g, hg, he⟩

/-- Filtering the filtered records by group key is one filter over the raw
records with the conjoined predicate. -/
theorem filter_filter_group (recs : List UsageRow) (p q : UsageRow → Bool) :
    (recs.filter p).filter q = recs.filter (fun r => p r && q r) := by
  rw [List.filter_filter]
  exact List.filter_congr (fun a _ => Bool.and_comm (q a) (p a))

/-- C8: the ledger query aggregates exactly the records of the trailing
window (optionally restricted to one key id): the output is ordered by
date descending then count descending; each output row's `count` is the
number of in-window records of its `(endpoint, date)` group (and is
positive) and its average satisfies `count * avg = sum of latencies`, the
arithmetic mean; a group appears in the output exactly when some in-window
record belongs to it; and `get_usage_stats` delegates to this query after
resolving the optional key string. -/
theorem C8_usage_stats_aggregation (s : DBState) (kf : Option Nat)
    (days : Nat) (now : Int) :
    List.Sorted StatOrder
      (usage_query s.usage_stats kf (now - (days : Int) * 86400))
  ∧ (∀ row ∈ usage_query s.usage_stats kf (now - (days : Int) * 86400),
      0 < row.count
      ∧ row.count = (s.usage_stats.filter (fun r =>
          usageMatches kf (now - (days : Int) * 86400) r
            && (groupOf r == (row.endpoint, row.date)))).length
      ∧ (row.count : ℚ) * row.avg_response_time =
          ((s.usage_stats.filter (fun r =>
            usageMatches kf (now - (days : Int) * 86400) r
              && (groupOf r == (row.endpoint, row.date)))).map
                (fun r => (r.response_time_ms : ℚ))).sum)
  ∧ (∀ e d,
      (∃ row ∈ usage_query s.usage_stats kf (now - (days : Int) * 86400),
        row.endpoint = e ∧ row.date = d) ↔
      (∃ r ∈ s.usage_stats,
        usageMatches kf (now - (days : Int) * 86400) r = true
        ∧ r.endpoint = e ∧ dateOf r.timestamp = d))
  ∧ (∀ k kid, get_api_key_id s k = some kid →
      get_usage_stats s (some k) days now =
        usage_query s.usage_stats (some kid) (now - (days : Int) * 86400))
  ∧ get_usage_stats s none days now =
      usage_query s.usage_stats none (now - (days : Int) * 86400) := by
  refine ⟨?_, ?_, ?_, ?_, ?_⟩
  · unfold usage_query
    exact List.sorted_insertionSort _ _
  · intro row hrow
    obtain ⟨g, hg, hag⟩ := (mem_usage_query _ _ _ _).mp hrow
    obtain ⟨e, d⟩ := g
    subst hag
    have hmem : (e, d) ∈ (s.usage_stats.filter
        (usageMatches kf (now - (days : Int) * 86400))).map groupOf :=
      List.mem_dedup.mp hg
    obtain ⟨r0, hr0, hgr0⟩ := List.mem_map.mp hmem
    have hpos : 0 < ((s.usage_stats.filter
        (usageMatches kf (now - (days : Int) * 86400))).filter
          (fun r => groupOf r == (e, d))).length := by
      have : r0 ∈ (s.usage_stats.filter
          (usageMatches kf (now - (days : Int) * 86400))).filter
            (fun r => groupOf r == (e, d)) :=
        List.mem_filter.mpr ⟨hr0, by simp [hgr0]⟩
      calc 0 < 1 := Nat.one_pos
        _ ≤ _ := List.length_pos.mpr (List.ne_nil_of_mem this) 
    refine ⟨hpos, ?_, ?_⟩
    · show ((s.usage_stats.filter
          (usageMatches kf (now - (days : Int) * 86400))).filter
            (fun r => groupOf r == (e, d))).length =
        (s.usage_stats.filter (fun r =>
          usageMatches kf (now - (days : Int) * 86400) r
            && (groupOf r == (e, d)))).length
      rw [filter_filter_group]
    · have hne : ((((s.usage_stats.filter
          (usageMatches kf (now - (days : Int) * 86400))).filter
            (fun r => groupOf r == (e, d))).length : ℚ)) ≠ 0 := by
        have h0 : (((s.usage_stats.filter
            (usageMatches kf (now - (days : Int) * 86400))).filter
              (fun r => groupOf r == (e, d))).length) ≠ 0 := by omega
        exact_mod_cast h0
      show ((((s.usage_stats.filter
          (usageMatches kf (now - (days : Int) * 86400))).filter
            (fun r => groupOf r == (e, d))).length : ℚ)) *
          ((((s.usage_stats.filter
            (usageMatches kf (now - (days : Int) * 86400))).filter
              (fun r => groupOf r == (e, d))).map
                (fun r => (r.response_time_ms : ℚ))).sum /
            (((s.usage_stats.filter
              (usageMatches kf (now - (days : Int) * 86400))).filter
                (fun r => groupOf r == (e, d))).length : ℚ)) =
          ((s.usage_stats.filter (fun r =>
            usageMatches kf (now - (days : Int) * 86400) r
              && (groupOf r == (e, d)))).map
                (fun r => (r.response_time_ms : ℚ))).sum
      rw [mul_comm, div_mul_cancel₀ _ hne, filter_filter_group]
  · intro e d
    constructor
    · rintro ⟨row, hrow, he, hd⟩
      obtain ⟨g, hg, hag⟩ := (mem_usage_query _ _ _ _).mp hrow
      obtain ⟨e0, d0⟩ := g
      have he0 : e0 = e := by rw [← he, ← hag]; rfl
      have hd0 : d0 = d := by rw [← hd, ← hag]; rfl
      subst he0
      subst hd0
      have hmem : (e0, d0) ∈ (s.usage_stats.filter
          (usageMatches kf (now - (days : Int) * 86400))).map groupOf :=
        List.mem_dedup.mp hg
      obtain ⟨r, hr, hgr⟩ := List.mem_map.mp hmem
      have hrr := List.mem_filter.mp hr
      refine ⟨r, hrr.1, hrr.2, ?_, ?_⟩
      · have := congrArg Prod.fst hgr
        simpa [groupOf] using this
      · have := congrArg Prod.snd hgr
        simpa [groupOf] using this
    · rintro ⟨r, hr, hpred, he, hd⟩
      refine ⟨aggregate (s.usage_stats.filter
          (usageMatches kf (now - (days : Int) * 86400))) (e, d),
        ?_, rfl, rfl⟩
      apply (mem_usage_query _ _ _ _).mpr
      refine ⟨(e, d), ?_, rfl⟩
      rw [List.mem_dedup]
      apply List.mem_map.mpr
      refine ⟨r, List.mem_filter.mpr ⟨hr, hpred⟩, ?_⟩
      unfold groupOf
      rw [he, hd]
  · intro k kid hres
    unfold get_usage_stats
    simp only [hres]
  · rfl

/-- Two ledger records in the same `(endpoint, date)` group, used by the
C8 witness. -/
def exUsage : List UsageRow :=
  [⟨1, "/api/fact-check", 100000, 10, 200⟩,
   ⟨1, "/api/fact-check", 100500, 30, 200⟩]

/-- A database with `exKey` and the two `exUsage` ledger records. -/
def exStatsState : DBState :=
  { api_keys := [exKey], usage_stats := exUsage, rate_limits := [],
    next_id := 2 }

/-- C8 witness: resolving `abc123` delegates to the id-1 query, and the
group of the two in-window `exUsage` records does appear in the output. -/
theorem C8_usage_stats_aggregation_witness :
    get_usage_stats exStatsState (some "abc123") 7 200000 =
      usage_query exStatsState.usage_stats (some 1)
        ((200000 : Int) - ((7 : Nat) : Int) * 86400)
    ∧ ∃ row ∈ usage_query exStatsState.usage_stats (some 1)
        ((200000 : Int) - ((7 : Nat) : Int) * 86400),
        row.endpoint = "/api/fact-check" ∧ row.date = 1 := by
  refine ⟨(C8_usage_stats_aggregation exStatsState (some 1) 7 200000).2.2.2.1
      "abc123" 1 (by decide), ?_⟩
  exact ((C8_usage_stats_aggregation exStatsState (some 1) 7 200000).2.2.1
      "/api/fact-check" 1).mpr
    ⟨⟨1, "/api/fact-check", 100000, 10, 200⟩, by decide, by decide, rfl,
      by decide⟩
